import Mathlib

/-!
Shallow embedding of `himawari8py.py` (Himawari-8 tile fetch-and-compose
pipeline) together with theorems settling the spec's claims.

External collaborators (HTTP transport, PIL image decoding/resizing,
dateutil's string parser) are modelled as injected parameters, following
the spec's component boundaries.  All functions that the claims touch
(`format_url`, `get_tile`, the grid-fetch stage and compositing loop of
`get_image`, `daterange`, `_parsedate`) are translated from the Python
source, bug for bug.
-/

/-- Python `datetime.datetime` restricted to the fields the program uses
(microseconds are always 0 in this code path). -/
structure DateTime where
  year : Nat
  month : Nat
  day : Nat
  hour : Nat
  minute : Nat
  second : Nat
deriving DecidableEq, Repr

/-- Python compares `datetime` objects lexicographically on
(year, month, day, hour, minute, second). -/
def ltDT (a b : DateTime) : Bool :=
  if a.year < b.year then true else if b.year < a.year then false
  else if a.month < b.month then true else if b.month < a.month then false
  else if a.day < b.day then true else if b.day < a.day then false
  else if a.hour < b.hour then true else if b.hour < a.hour then false
  else if a.minute < b.minute then true else if b.minute < a.minute then false
  else decide (a.second < b.second)

/-- Days before January 1 of year `y` in the proleptic Gregorian calendar,
as used by Python `datetime.toordinal`. -/
def daysBeforeYear (y : Nat) : Nat :=
  let n := y - 1
  n * 365 + n / 4 - n / 100 + n / 400

/-- Cumulative days before month `m` (1-based), non-leap year. -/
def daysBeforeMonth (m : Nat) : Nat :=
  match m with
  | 1 => 0 | 2 => 31 | 3 => 59 | 4 => 90 | 5 => 120 | 6 => 151
  | 7 => 181 | 8 => 212 | 9 => 243 | 10 => 273 | 11 => 304 | 12 => 334
  | _ => 0

def isLeap (y : Nat) : Bool :=
  y % 4 == 0 && (y % 100 != 0 || y % 400 == 0)

/-- Python `datetime.toordinal`: day count with 0001-01-01 = 1. -/
def toOrdinal (d : DateTime) : Nat :=
  daysBeforeYear d.year + daysBeforeMonth d.month
    + (if isLeap d.year && decide (2 < d.month) then 1 else 0) + d.day

/-- Seconds since 0001-01-01T00:00:00, the quantity underlying Python's
`(finish - start).total_seconds()`. -/
def toSeconds (d : DateTime) : Nat :=
  (toOrdinal d - 1) * 86400 + d.hour * 3600 + d.minute * 60 + d.second

/-- Inverse of `toOrdinal` (civil-from-days), used to model
`datetime + timedelta` calendar carrying. -/
def civilFromOrdinal (ord : Nat) : Nat × Nat × Nat :=
  let z := ord + 305
  let era := z / 146097
  let doe := z % 146097
  let yoe := (doe - doe / 1460 + doe / 36524 - doe / 146096) / 365
  let y := yoe + era * 400
  let doy := doe - (365 * yoe + yoe / 4 - yoe / 100)
  let mp := (5 * doy + 2) / 153
  let d := doy - (153 * mp + 2) / 5 + 1
  let m := if mp < 10 then mp + 3 else mp - 9
  (if m ≤ 2 then y + 1 else y, m, d)

/-- Python `dt + datetime.timedelta(minutes=k)` for a non-negative minute
count: full calendar arithmetic, seconds preserved. -/
def addMinutes (dt : DateTime) (k : Nat) : DateTime :=
  let tm := (toOrdinal dt - 1) * 1440 + dt.hour * 60 + dt.minute + k
  let c := civilFromOrdinal (tm / 1440 + 1)
  ⟨c.1, c.2.1, c.2.2, (tm % 1440) / 60, tm % 60, dt.second⟩

/-- The module constant holding the infra-red path segment, `"FULL_24h"`
in the source. -/
def IR_PREF : String := "FULL_24h"

def IMAGE : String := "D531106"

def HIMAWARI : String := "himawari8-dl.nict.go.jp"

def BASE_URL : String := "https://" ++ HIMAWARI ++ "/himawari8/img"

/-- The `band` argument: Python `None`, the string `"RGB"`, or an `int`. -/
inductive Band where
  | noBand : Band
  | rgb : Band
  | spectral : Nat → Band
deriving DecidableEq, Repr

/-- Python `str(band)` for the values the program passes. -/
def bandStr : Band → String
  | .noBand => "None"
  | .rgb => "RGB"
  | .spectral b => toString b

/-- Python `str.zfill`: left-pad with zeros to width `w`. -/
def zfill (s : String) (w : Nat) : String :=
  if s.length < w then String.mk (List.replicate (w - s.length) '0') ++ s else s

/-- Truthiness of a Python string: nonempty strings are truthy. -/
def pyTruthy (s : String) : Bool := !(s == "")

/-- `date.strftime("%Y/%m/%d/%H%M%S")`: zero-padded calendar fields. -/
def pad2 (n : Nat) : String := zfill (toString n) 2

def pad4 (n : Nat) : String := zfill (toString n) 4

def strftimeURL (d : DateTime) : String :=
  pad4 d.year ++ "/" ++ pad2 d.month ++ "/" ++ pad2 d.day ++ "/"
    ++ pad2 d.hour ++ pad2 d.minute ++ pad2 d.second

/-- `format_url` from the source.  The Python condition
`band == None or 'RGB'` parses as `(band == None) or 'RGB'`, and the
nonempty literal `'RGB'` is always truthy, so the first branch is always
taken; the embedding keeps that structure verbatim. -/
def format_url (x y level : Nat) (date : DateTime) (band : Band) : String :=
  let seg := if band == Band.noBand || pyTruthy "RGB" then IMAGE
             else IR_PREF ++ "/B" ++ zfill (bandStr band) 2
  BASE_URL ++ "/" ++ seg ++ "/" ++ toString level ++ "d/550/"
    ++ strftimeURL date ++ "_" ++ toString x ++ "_" ++ toString y ++ ".png"

/-- What one `session.get`/decode attempt inside `get_tile` can do:
the request raises a transport exception before `response` is bound, or it
returns a response with a status code, whose body `Image.open` then either
decodes (`decodeOk = true`) or fails on (`decodeOk = false`). -/
inductive Attempt where
  | raised : Attempt
  | resp : Nat → Bool → Attempt
deriving DecidableEq, Repr

/-- Outcome of `get_tile`: the `return x, y, Image.open(...)` tuple, the
final `raise Exception(f"... Response {response.status_code}")`, or the
`NameError`/`UnboundLocalError` that raise hits when `response` was never
bound by any attempt. -/
inductive GetTileResult where
  | success : Nat → Nat → GetTileResult
  | fetchError : Nat → GetTileResult
  | nameError : GetTileResult
deriving DecidableEq, Repr

/-- The retry loop of `get_tile`: `i` is the next attempt index, `fuel` the
remaining loop iterations, `last` the currently bound `response` status
(none while `response` is still unbound).  Returns the outcome paired with
the number of transport attempts actually performed. -/
def getTileGo (x y : Nat) (transport : Nat → Attempt) :
    Nat → Nat → Option Nat → GetTileResult × Nat
  | _, 0, last =>
    (match last with
     | some s => .fetchError s
     | none => .nameError, 0)
  | i, fuel + 1, last =>
    match transport i with
    | .raised =>
      let r := getTileGo x y transport (i + 1) fuel last
      (r.1, r.2 + 1)
    | .resp s ok =>
      if s = 200 then
        if ok then (.success x y, 1)
        else
          let r := getTileGo x y transport (i + 1) fuel (some s)
          (r.1, r.2 + 1)
      else
        let r := getTileGo x y transport (i + 1) fuel (some s)
        (r.1, r.2 + 1)

/-- `get_tile` from the source, with the transport collaborator injected as
the sequence of per-attempt outcomes (the URL passed to `session.get` is
the pure `format_url` value and does not influence the retry control flow). -/
def get_tile (x y : Nat) (transport : Nat → Attempt) (retries : Nat) :
    GetTileResult × Nat :=
  getTileGo x y transport 0 retries none

/-- Python `round(minute/10)` for `0 ≤ minute`: floats `k + 0.5` are exactly
representable, so CPython rounds halves to the nearest even integer. -/
def pyRound10 (minute : Nat) : Nat :=
  let q := minute / 10
  let r := minute % 10
  if r < 5 then q
  else if 5 < r then q + 1
  else if q % 2 = 0 then q else q + 1

inductive DRError where
  | rangeError : DRError
  | valueError : DRError
deriving DecidableEq, Repr

/-- `daterange` from the source, on already-resolved datetimes (the
`_parsedate` string/None resolution is modelled separately).  The generator
is materialised as the finite list it yields; the two ways it can raise —
the explicit range check and the `datetime(...)` constructor rejecting
`minute = 60` when `round(start.minute/10)*10` overflows the hour — become
the two error values. -/
def daterange (start finish : DateTime) (increment : Nat) :
    Except DRError (List DateTime) :=
  if ltDT finish start then .error .rangeError
  else
    let bm := pyRound10 start.minute * 10
    if 60 ≤ bm then .error .valueError
    else
      let base : DateTime := ⟨start.year, start.month, start.day, start.hour, bm, 0⟩
      let n := (toSeconds finish - toSeconds start) / 60 / increment
      .ok ((List.range n).map (fun i => addMinutes base (i * increment)))

/-- The three shapes `_parsedate`'s argument can have. -/
inductive DateInput where
  | str : String → DateInput
  | ts : DateTime → DateInput
  | absent : DateInput

inductive ParseError where
  | invalidInput : ParseError
  | unavailable : ParseError
deriving DecidableEq, Repr

/-- `_parsedate` from the source, with `dateutil.parser.parse` injected as
`parse` (`none` models an unparseable-text exception) and `latestdate`
injected as `latest`. -/
def parsedate (parse : String → Option DateTime)
    (latest : Nat → Except ParseError DateTime)
    (date : DateInput) (retries : Nat) : Except ParseError DateTime :=
  match date with
  | .str s =>
    match parse s with
    | some d => .ok d
    | none => .error .invalidInput
  | .ts d => .ok d
  | .absent => latest retries

/-- `itertools.product(range(level), range(level))`: the coordinate
enumeration driving both the sequential loop and the thread-pool dispatch
in `get_image`. -/
def gridCoords (level : Nat) : List (Nat × Nat) :=
  (List.range level).flatMap (fun x => (List.range level).map (fun y => (x, y)))

/-- The grid-fetch stage of `get_image` when every `get_tile` call succeeds:
each coordinate yields its `(x, y, tile)` triple, in enumeration order
(the sequential mode's `result` list; the multithreaded `imap_unordered`
mode yields a permutation of it). -/
def gridFetchSeq {T : Type} (level : Nat) (fetch : Nat → Nat → T) :
    List (Nat × Nat × T) :=
  (gridCoords level).map (fun c => (c.1, c.2, fetch c.1 c.2))

/-- `imgsize = (scale * level, scale * level)` from `get_image`. -/
def imgsize (scale level : Nat) : Nat × Nat := (scale * level, scale * level)

/-- `image.paste(t, box)` for a `w × h` pixel block at offset `(ox, oy)`:
the canvas is a pixel buffer indexed by (column, row). -/
def pasteTile {P : Type} (canvas : Nat → Nat → P) (tile : Nat → Nat → P)
    (ox oy w h : Nat) : Nat → Nat → P :=
  fun px py =>
    if ox ≤ px ∧ px < ox + w ∧ oy ≤ py ∧ py < oy + h then tile (px - ox) (py - oy)
    else canvas px py

/-- The stitching loop of `get_image`:
`image.paste(tile.resize((scale, scale), Image.BILINEAR), (x*scale, y*scale))`
folded over the result list, with PIL's bilinear `resize` injected as the
codec collaborator mapping a fetched tile to its `scale × scale` pixels. -/
def stitch {T P : Type} (scale : Nat) (resize : T → Nat → Nat → P)
    (init : Nat → Nat → P) (tiles : List (Nat × Nat × T)) : Nat → Nat → P :=
  tiles.foldl
    (fun img e => pasteTile img (resize e.2.2) (e.1 * scale) (e.2.1 * scale) scale scale)
    init

/-- Is `p` a prefix of the second character list (executable helper for
substring claims about concrete URLs). -/
def isPrefLC : List Char → List Char → Bool
  | [], _ => true
  | _ :: _, [] => false
  | a :: as, b :: bs => a == b && isPrefLC as bs

/-- Does the character list contain `seg` as a contiguous segment. -/
def hasSeg (seg : List Char) : List Char → Bool
  | [] => isPrefLC seg []
  | c :: cs => isPrefLC seg (c :: cs) || hasSeg seg cs

deriving instance DecidableEq for Except

/-! ## Claim theorems -/

/-- C1 (code bug evidence): the claim says `format_url` with integer band
`b` yields a URL containing `FULL_24h/B` with `b` zero-padded to width 2,
but the Python condition `band == None or 'RGB'` is always truthy, so an
integer band request still produces the true-color `D531106` path and no
`FULL_24h/B01` segment appears anywhere in the URL. -/
theorem format_url_spectral_band_ignored :
    format_url 0 0 1 ⟨2021, 1, 1, 0, 0, 0⟩ (Band.spectral 1)
      = "https://himawari8-dl.nict.go.jp/himawari8/img/D531106/1d/550/2021/01/01/000000_0_0.png"
    ∧ hasSeg ("FULL_24h/B01").data
        (format_url 0 0 1 ⟨2021, 1, 1, 0, 0, 0⟩ (Band.spectral 1)).data = false := by
  constructor
  · rfl
  · decide

/-- C2 (code bug evidence): on the spec's own example
`daterange("2021-01-01T00:07:00", "2021-01-01T00:47:00", 10)` the code
aligns the base upward (Python `round(7/10) = 1`) and yields
00:10, 00:20, 00:30, 00:40 — not the floor-aligned 00:00, 00:10, 00:20,
00:30 the claim states. -/
theorem daterange_example_rounds_up :
    daterange ⟨2021, 1, 1, 0, 7, 0⟩ ⟨2021, 1, 1, 0, 47, 0⟩ 10
      = Except.ok [⟨2021, 1, 1, 0, 10, 0⟩, ⟨2021, 1, 1, 0, 20, 0⟩,
          ⟨2021, 1, 1, 0, 30, 0⟩, ⟨2021, 1, 1, 0, 40, 0⟩]
    ∧ daterange ⟨2021, 1, 1, 0, 7, 0⟩ ⟨2021, 1, 1, 0, 47, 0⟩ 10
      ≠ Except.ok [⟨2021, 1, 1, 0, 0, 0⟩, ⟨2021, 1, 1, 0, 10, 0⟩,
          ⟨2021, 1, 1, 0, 20, 0⟩, ⟨2021, 1, 1, 0, 30, 0⟩] := by
  constructor
  · rfl
  · decide

/-- C8: `format_url` is a pure function of its five inputs — two calls on
identical inputs yield the identical URL string, so identically
constructed tile identifiers are equal and interchangeable as fetch keys. -/
theorem format_url_deterministic (x y level : Nat) (date : DateTime) (band : Band)
    (x' y' level' : Nat) (date' : DateTime) (band' : Band)
    (hx : x = x') (hy : y = y') (hl : level = level')
    (hd : date = date') (hb : band = band') :
    format_url x y level date band = format_url x' y' level' date' band' := by
  subst hx; subst hy; subst hl; subst hd; subst hb; rfl

/-- Witness for C8 at a concrete input. -/
theorem format_url_deterministic_app :
    format_url 1 2 4 ⟨2021, 3, 4, 5, 6, 7⟩ Band.rgb
      = format_url 1 2 4 ⟨2021, 3, 4, 5, 6, 7⟩ Band.rgb :=
  format_url_deterministic 1 2 4 ⟨2021, 3, 4, 5, 6, 7⟩ Band.rgb
    1 2 4 ⟨2021, 3, 4, 5, 6, 7⟩ Band.rgb rfl rfl rfl rfl rfl

/-- C6: when `finish < start` (Python datetime comparison), `daterange`
raises its range-check exception and yields no timestamps. -/
theorem daterange_range_validation (start finish : DateTime) (increment : Nat)
    (h : ltDT finish start = true) :
    daterange start finish increment = .error .rangeError := by
  simp [daterange, h]

/-- Witness for C6 at a concrete input. -/
theorem daterange_range_validation_app :
    daterange ⟨2021, 1, 2, 0, 0, 0⟩ ⟨2021, 1, 1, 0, 0, 0⟩ 10
      = .error .rangeError :=
  daterange_range_validation ⟨2021, 1, 2, 0, 0, 0⟩ ⟨2021, 1, 1, 0, 0, 0⟩ 10 (by decide)

/-- C10: for any start with minute component 55..59 (and any increment),
`round(start.minute/10)*10` is 60, so when the range check passes the
`datetime` constructor is called with `minute = 60` and `daterange` fails
with the constructor's `ValueError` instead of yielding a sequence. -/
theorem daterange_minute55_valueerror (start finish : DateTime) (increment : Nat)
    (h55 : 55 ≤ start.minute) (h60 : start.minute < 60)
    (hge : ltDT finish start = false) :
    daterange start finish increment = .error .valueError := by
  have hall : ∀ m, 55 ≤ m → m < 60 → pyRound10 m = 6 := by
    intro m hm1 hm2
    interval_cases m <;> rfl
  have hround : pyRound10 start.minute = 6 := hall start.minute h55 h60
  simp [daterange, hge, hround]

/-- Witness for C10 at a concrete input. -/
theorem daterange_minute55_valueerror_app :
    daterange ⟨2021, 1, 1, 0, 55, 0⟩ ⟨2021, 1, 1, 1, 30, 0⟩ 10
      = .error .valueError :=
  daterange_minute55_valueerror ⟨2021, 1, 1, 0, 55, 0⟩ ⟨2021, 1, 1, 1, 30, 0⟩ 10
    (by decide) (by decide) (by decide)

/-- C7: `_parsedate` returns a datetime argument verbatim, parses a string
argument with the injected calendar parser (failing on unparseable text),
and delegates to the latest-date resolver when the argument is absent. -/
theorem parsedate_cases (parse : String → Option DateTime)
    (latest : Nat → Except ParseError DateTime) (retries : Nat) :
    (∀ d, parsedate parse latest (.ts d) retries = .ok d)
    ∧ (∀ s d, parse s = some d → parsedate parse latest (.str s) retries = .ok d)
    ∧ (∀ s, parse s = none →
        parsedate parse latest (.str s) retries = .error .invalidInput)
    ∧ parsedate parse latest .absent retries = latest retries := by
  refine ⟨fun d => rfl, fun s d h => ?_, fun s h => ?_, rfl⟩
  · simp [parsedate, h]
  · simp [parsedate, h]

/-- Witness for C7 at a concrete input. -/
theorem parsedate_cases_app :
    parsedate (fun _ => some ⟨2021, 1, 1, 0, 0, 0⟩) (fun _ => .error .unavailable)
      (.str "2021-01-01") 10 = .ok ⟨2021, 1, 1, 0, 0, 0⟩ :=
  (parsedate_cases (fun _ => some ⟨2021, 1, 1, 0, 0, 0⟩)
    (fun _ => .error .unavailable) 10).2.1 "2021-01-01" ⟨2021, 1, 1, 0, 0, 0⟩ rfl

/-- In the retry loop, if every attempt raises before `response` is bound,
the status tracker stays `none` and all iterations are consumed. -/
theorem getTileGo_raised (x y : Nat) (t : Nat → Attempt) (h : ∀ i, t i = .raised) :
    ∀ (fuel i : Nat), getTileGo x y t i fuel none = (.nameError, fuel) := by
  intro fuel
  induction fuel with
  | zero => intro i; rfl
  | succ n ih =>
    intro i
    simp [getTileGo, h i, ih (i + 1)]

/-- C9: with `retries = 0`, or when every attempt raises a transport
exception before a response object exists, the final `raise` references
the never-bound `response` variable, so `get_tile` fails with the
unbound-variable error rather than the documented fetch error. -/
theorem get_tile_unbound_response :
    (∀ (x y : Nat) (transport : Nat → Attempt),
      get_tile x y transport 0 = (.nameError, 0))
    ∧ (∀ (x y retries : Nat) (transport : Nat → Attempt),
        (∀ i, transport i = .raised) →
        get_tile x y transport retries = (.nameError, retries)) := by
  constructor
  · intro x y transport
    rfl
  · intro x y retries transport h
    exact getTileGo_raised x y transport h retries 0

/-- Witness for C9 at concrete inputs: zero retries, and three
always-raising attempts. -/
theorem get_tile_unbound_response_app :
    get_tile 3 4 (fun _ => Attempt.raised) 0 = (.nameError, 0)
    ∧ get_tile 3 4 (fun _ => Attempt.raised) 3 = (.nameError, 3) :=
  ⟨get_tile_unbound_response.1 3 4 (fun _ => Attempt.raised),
   get_tile_unbound_response.2 3 4 3 (fun _ => Attempt.raised) (fun _ => rfl)⟩

/-- One loop iteration on a non-success response: `response` is rebound to
that status, the attempt counter advances, and the loop continues. -/
theorem getTileGo_step_nonsuccess (x y : Nat) (t : Nat → Attempt)
    (i fuel : Nat) (last : Option Nat) (s : Nat) (ok : Bool)
    (ht : t i = .resp s ok) (hs : s ≠ 200) :
    getTileGo x y t i (fuel + 1) last
      = ((getTileGo x y t (i + 1) fuel (some s)).1,
         (getTileGo x y t (i + 1) fuel (some s)).2 + 1) := by
  simp [getTileGo, ht, hs]

/-- In the retry loop, a block of `m + 1` consecutive non-success responses
consumes all `m + 1` iterations, binds `response` each time, and ends in
the terminal raise carrying the last status seen. -/
theorem getTileGo_nonsuccess (x y : Nat) (status : Nat → Nat) (dec : Nat → Bool) :
    ∀ (m i : Nat) (last : Option Nat),
      (∀ j, i ≤ j → j < i + (m + 1) → status j ≠ 200) →
      getTileGo x y (fun k => .resp (status k) (dec k)) i (m + 1) last
        = (.fetchError (status (i + m)), m + 1) := by
  intro m
  induction m with
  | zero =>
    intro i last h
    have hne : status i ≠ 200 := h i (le_refl i) (by omega)
    simp [getTileGo, hne]
  | succ n ih =>
    intro i last h
    have hne : status i ≠ 200 := h i (le_refl i) (by omega)
    have hrec := ih (i + 1) (some (status i)) (fun j hj1 hj2 => h j (by omega) (by omega))
    have harith : i + 1 + n = i + (n + 1) := by omega
    rw [harith] at hrec
    rw [getTileGo_step_nonsuccess x y _ i (n + 1) last (status i) (dec i) rfl hne, hrec]

/-- C3: when the transport returns a non-success status on every attempt,
`get_tile` performs exactly `retries` request attempts and then fails with
the fetch error carrying the last observed status. -/
theorem get_tile_retry_exhaustion (x y : Nat) (status : Nat → Nat) (dec : Nat → Bool)
    (retries : Nat) (h1 : 1 ≤ retries) (h2 : ∀ i, i < retries → status i ≠ 200) :
    get_tile x y (fun k => .resp (status k) (dec k)) retries
      = (.fetchError (status (retries - 1)), retries) := by
  obtain ⟨m, rfl⟩ : ∃ m, retries = m + 1 := ⟨retries - 1, by omega⟩
  have := getTileGo_nonsuccess x y status dec m 0 none (fun j hj1 hj2 => h2 j (by omega))
  simpa [get_tile] using this

/-- Witness for C3: ten attempts all answered 404 give exactly ten
attempts and a fetch error carrying 404. -/
theorem get_tile_retry_exhaustion_app :
    get_tile 3 4 (fun _ => Attempt.resp 404 true) 10 = (.fetchError 404, 10) :=
  get_tile_retry_exhaustion 3 4 (fun _ => 404) (fun _ => true) 10
    (by decide) (by intro i hi; simp)

/-- The coordinate enumeration is the cartesian product of two ranges. -/
theorem gridCoords_eq_product (level : Nat) :
    gridCoords level = List.product (List.range level) (List.range level) := rfl

theorem mem_gridCoords (level x y : Nat) :
    (x, y) ∈ gridCoords level ↔ x < level ∧ y < level := by
  rw [gridCoords_eq_product]
  have h : (x, y) ∈ List.product (List.range level) (List.range level)
      ↔ x ∈ List.range level ∧ y ∈ List.range level := List.mem_product
  rw [h, List.mem_range, List.mem_range]

theorem gridCoords_nodup (level : Nat) : (gridCoords level).Nodup := by
  rw [gridCoords_eq_product]
  exact List.Nodup.product (List.nodup_range level) (List.nodup_range level)

theorem gridCoords_length (level : Nat) :
    (gridCoords level).length = level * level := by
  rw [gridCoords_eq_product]
  have h := List.length_product (List.range level) (List.range level)
  rw [List.length_range] at h
  exact h

/-- Projecting the fetched triples back to their coordinates recovers the
coordinate enumeration. -/
theorem gridFetchSeq_map_coords {T : Type} (level : Nat) (fetch : Nat → Nat → T) :
    (gridFetchSeq level fetch).map (fun e => (e.1, e.2.1)) = gridCoords level := by
  unfold gridFetchSeq
  rw [List.map_map]
  have : ((fun e : Nat × Nat × T => (e.1, e.2.1))
      ∘ (fun c : Nat × Nat => (c.1, c.2, fetch c.1 c.2))) = id := by
    funext c
    simp
  rw [this, List.map_id]

theorem mem_gridFetchSeq {T : Type} (level : Nat) (fetch : Nat → Nat → T) (x y : Nat) :
    (x, y, fetch x y) ∈ gridFetchSeq level fetch ↔ x < level ∧ y < level := by
  constructor
  · intro h
    obtain ⟨c, hc, he⟩ := List.mem_map.mp h
    have h1 : c.1 = x := congrArg Prod.fst he
    have h2 : c.2 = y := congrArg (fun p : Nat × Nat × T => p.2.1) he
    have : (x, y) ∈ gridCoords level := by
      rw [← h1, ← h2]
      simpa using hc
    exact (mem_gridCoords level x y).mp this
  · intro h
    exact List.mem_map.mpr ⟨(x, y), (mem_gridCoords level x y).mpr h, rfl⟩

/-- C4: when every tile fetch succeeds, the grid-fetch stage of `get_image`
collects exactly `level * level` triples, one for every coordinate
`(x, y)` with `x < level` and `y < level`, with no duplicates and no gaps;
the statement quantifies over any permutation `r` of the enumeration-order
result, covering both the sequential loop and the multithreaded
`imap_unordered` completion order. -/
theorem grid_fetch_completeness {T : Type} (level : Nat) (fetch : Nat → Nat → T)
    (r : List (Nat × Nat × T)) (h : r.Perm (gridFetchSeq level fetch)) :
    r.length = level * level
    ∧ (∀ x y, ((x, y, fetch x y) ∈ r ↔ x < level ∧ y < level))
    ∧ (r.map (fun e => (e.1, e.2.1))).Nodup := by
  refine ⟨?_, ?_, ?_⟩
  · rw [h.length_eq]
    unfold gridFetchSeq
    rw [List.length_map]
    exact gridCoords_length level
  · intro x y
    rw [h.mem_iff]
    exact mem_gridFetchSeq level fetch x y
  · rw [(h.map _).nodup_iff, gridFetchSeq_map_coords]
    exact gridCoords_nodup level

/-- Witness for C4: the reversed (completion-order) result of a 2×2 grid
is complete and duplicate-free. -/
theorem grid_fetch_completeness_app :
    ((gridFetchSeq 2 (fun x y => x * 10 + y)).reverse).length = 2 * 2
    ∧ ((1, 0, 10) ∈ (gridFetchSeq 2 (fun x y => x * 10 + y)).reverse ↔ 1 < 2 ∧ 0 < 2)
    ∧ (((gridFetchSeq 2 (fun x y => x * 10 + y)).reverse).map
        (fun e => (e.1, e.2.1))).Nodup :=
  ⟨(grid_fetch_completeness 2 (fun x y => x * 10 + y) _ (List.reverse_perm _)).1,
   (grid_fetch_completeness 2 (fun x y => x * 10 + y) _ (List.reverse_perm _)).2.1 1 0,
   (grid_fetch_completeness 2 (fun x y => x * 10 + y) _ (List.reverse_perm _)).2.2⟩

/-- A pixel column inside tile block `x` determines `x`: the blocks tiled
at multiples of `scale` are disjoint. -/
theorem blockIndex_eq {scale a x i : Nat} (hi : i < scale)
    (h1 : a * scale ≤ x * scale + i) (h2 : x * scale + i < a * scale + scale) :
    a = x := by
  have hx : (x * scale + i) / scale = x := by
    rw [Nat.add_comm, Nat.add_mul_div_right _ _ (by omega : 0 < scale),
      Nat.div_eq_of_lt hi]
    omega
  have hmul : (a + 1) * scale = a * scale + scale := by ring
  have ha : (x * scale + i) / scale = a := by
    refine Nat.div_eq_of_lt_le h1 ?_
    rw [hmul]
    exact h2
  omega

theorem stitch_cons {T P : Type} (scale : Nat) (resize : T → Nat → Nat → P)
    (init : Nat → Nat → P) (e : Nat × Nat × T) (ts : List (Nat × Nat × T)) :
    stitch scale resize init (e :: ts)
      = stitch scale resize
          (pasteTile init (resize e.2.2) (e.1 * scale) (e.2.1 * scale) scale scale) ts := rfl

/-- Pastes whose blocks avoid a pixel leave that pixel at its initial
value. -/
theorem stitch_nocover {T P : Type} (scale : Nat) (resize : T → Nat → Nat → P)
    (tiles : List (Nat × Nat × T)) (px py : Nat)
    (h : ∀ e ∈ tiles, ¬ (e.1 * scale ≤ px ∧ px < e.1 * scale + scale
          ∧ e.2.1 * scale ≤ py ∧ py < e.2.1 * scale + scale)) :
    ∀ init, stitch scale resize init tiles px py = init px py := by
  induction tiles with
  | nil => intro init; rfl
  | cons a ts ih =>
    intro init
    rw [stitch_cons]
    rw [ih (fun e he => h e (List.mem_cons_of_mem a he))
      (pasteTile init (resize a.2.2) (a.1 * scale) (a.2.1 * scale) scale scale)]
    simp only [pasteTile]
    exact if_neg (h a (List.mem_cons_self a ts))

/-- The pixel block of a coordinate that occurs in the paste list (with
coordinates pairwise distinct) holds exactly that coordinate's resampled
tile, independent of paste order and of the initial canvas. -/
theorem stitch_mem {T P : Type} (scale : Nat) (resize : T → Nat → Nat → P)
    (x y i j : Nat) (t : T) (hi : i < scale) (hj : j < scale) :
    ∀ (tiles : List (Nat × Nat × T)),
      (x, y, t) ∈ tiles →
      (tiles.map (fun e => (e.1, e.2.1))).Nodup →
      ∀ init, stitch scale resize init tiles (x * scale + i) (y * scale + j)
        = resize t i j := by
  intro tiles
  induction tiles with
  | nil =>
    intro hmem
    simp at hmem
  | cons a ts ih =>
    intro hmem hnd init
    have hnd2 : ((a.1, a.2.1) :: ts.map (fun e => (e.1, e.2.1))).Nodup := by
      simp only [List.map_cons] at hnd
      exact hnd
    obtain ⟨hna, hnd'⟩ := List.nodup_cons.mp hnd2
    rw [stitch_cons]
    rcases List.mem_cons.mp hmem with heq | hmemts
    · subst heq
      have hhead : (x, y) ∉ ts.map (fun e => (e.1, e.2.1)) := hna
      have hnc : ∀ e ∈ ts, ¬ (e.1 * scale ≤ x * scale + i
          ∧ x * scale + i < e.1 * scale + scale
          ∧ e.2.1 * scale ≤ y * scale + j
          ∧ y * scale + j < e.2.1 * scale + scale) := by
        intro e he hcov
        obtain ⟨h1, h2, h3, h4⟩ := hcov
        have hex : e.1 = x := blockIndex_eq hi h1 h2
        have hey : e.2.1 = y := blockIndex_eq hj h3 h4
        exact hhead (List.mem_map.mpr ⟨e, he, by rw [hex, hey]⟩)
      rw [stitch_nocover scale resize ts _ _ hnc]
      simp only [pasteTile]
      rw [if_pos ⟨Nat.le_add_right _ _, by omega, Nat.le_add_right _ _, by omega⟩]
      have e1 : x * scale + i - x * scale = i := by omega
      have e2 : y * scale + j - y * scale = j := by omega
      rw [e1, e2]
    · exact ih hmemts hnd' _

/-- C5: in the composite produced by the stitching loop of `get_image`, the
`scale × scale` pixel block at offset `(x·scale, y·scale)` is the injected
bilinear resampling of the tile fetched for coordinate `(x, y)`, for any
arrival order (any permutation of the fetch-stage result), and the
composite buffer has size `(scale·level, scale·level)`. -/
theorem compose_placement {T P : Type} (level scale : Nat) (fetch : Nat → Nat → T)
    (resize : T → Nat → Nat → P) (init : Nat → Nat → P)
    (tiles : List (Nat × Nat × T)) (x y i j : Nat)
    (hperm : tiles.Perm (gridFetchSeq level fetch))
    (hx : x < level) (hy : y < level) (hi : i < scale) (hj : j < scale) :
    stitch scale resize init tiles (x * scale + i) (y * scale + j)
      = resize (fetch x y) i j
    ∧ imgsize scale level = (scale * level, scale * level) := by
  refine ⟨?_, rfl⟩
  have hmem : (x, y, fetch x y) ∈ tiles :=
    hperm.mem_iff.mpr ((mem_gridFetchSeq level fetch x y).mpr ⟨hx, hy⟩)
  have hnd : (tiles.map (fun e => (e.1, e.2.1))).Nodup := by
    rw [(hperm.map _).nodup_iff, gridFetchSeq_map_coords]
    exact gridCoords_nodup level
  exact stitch_mem scale resize x y i j (fetch x y) hi hj tiles hmem hnd init

/-- Witness for C5: on a reversed-order 2×2 result with scale 3, the block
of coordinate (1, 0) holds that tile's resampling. -/
theorem compose_placement_app :
    stitch 3 (fun t i j => 100 * t + 10 * i + j) (fun _ _ => 0)
        ((gridFetchSeq 2 (fun x y => x * 10 + y)).reverse) (1 * 3 + 2) (0 * 3 + 1)
      = (fun t i j => 100 * t + 10 * i + j) ((fun x y => x * 10 + y) 1 0) 2 1
    ∧ imgsize 3 2 = (3 * 2, 3 * 2) :=
  compose_placement 2 3 (fun x y => x * 10 + y) (fun t i j => 100 * t + 10 * i + j)
    (fun _ _ => 0) ((gridFetchSeq 2 (fun x y => x * 10 + y)).reverse) 1 0 2 1
    (List.reverse_perm _) (by decide) (by decide) (by decide) (by decide)
